import Mathlib

/-!
Verification of the gdnsd "multifo" failover resolver (plugins/multifo.c)
and the ltarena pooled allocator (ltarena.c), as a shallow embedding in
Lean 4.  Pure C functions become Lean functions; the per-call result
buffer (`dyn_result_t`) is threaded explicitly; `log_fatal`/assert
failures become `Option.none`.
-/

/- ===================== State+TTL values (mon.h interface) ============ -/

/-- Modelled from the spec: `gdnsd_sttl_t` (declared in gdnsd/mon.h, not
part of the sources here) is "a packed value carrying (a) a TTL magnitude
and (b) a boolean down flag".  We model it as a structure holding the two
components. -/
structure gdnsd_sttl_t where
  down : Bool
  ttl : Nat
deriving DecidableEq, Repr

/-- Modelled from the spec: the maximum representable TTL magnitude with
the down flag clear (the `GDNSD_STTL_TTL_MAX` seed value used by the
min/min2 folds; a 30-bit TTL field). -/
def GDNSD_STTL_TTL_MAX : gdnsd_sttl_t := { down := false, ttl := 2 ^ 30 - 1 }

/-- Modelled from the spec: `gdnsd_sttl_min2` (gdnsd/mon.h, not in the
sources here) combines two state+TTL values: "result TTL = minimum TTL
among inputs; result down = true if any input is down". -/
def gdnsd_sttl_min2 (a b : gdnsd_sttl_t) : gdnsd_sttl_t :=
  { down := a.down || b.down, ttl := min a.ttl b.ttl }

/-- Modelled from the spec: `gdnsd_sttl_min` (gdnsd/mon.h, not in the
sources here) is the `min` fold over the state-table values at a list of
monitor indices, "vacuously up, max TTL if it has zero indices". -/
def gdnsd_sttl_min (sttl_tbl : Nat → gdnsd_sttl_t) (indices : List Nat) : gdnsd_sttl_t :=
  indices.foldl (fun rv i => gdnsd_sttl_min2 rv (sttl_tbl i)) GDNSD_STTL_TTL_MAX

/- ===================== Addresses and the result sink ================= -/

/-- Address family tag of a parsed address (`sa_family`: AF_INET/AF_INET6). -/
inductive family_t where
  | v4 : family_t
  | v6 : family_t
deriving DecidableEq, Repr

/-- A parsed address (`gdnsd_anysin_t`): its family plus an opaque host
identifier standing for the address bytes. -/
structure gdnsd_anysin_t where
  family : family_t
  host : Nat
deriving DecidableEq, Repr

/-- Modelled from the spec: the result sink (`dyn_result_t`, plugapi.h,
not in the sources here) is "an append-only output abstraction accepting
individual resolved addresses, with family-specific clear-all operation":
one address list per family. -/
structure dyn_result_t where
  v4 : List gdnsd_anysin_t
  v6 : List gdnsd_anysin_t
deriving DecidableEq, Repr

/-- Modelled from the spec: `gdnsd_result_add_anysin` appends the address
to its family's list in the sink. -/
def gdnsd_result_add_anysin (r : dyn_result_t) (a : gdnsd_anysin_t) : dyn_result_t :=
  match a.family with
  | family_t.v4 => { r with v4 := r.v4 ++ [a] }
  | family_t.v6 => { r with v6 := r.v6 ++ [a] }

/-- Modelled from the spec: clear all IPv4 entries of the sink. -/
def gdnsd_result_wipe_v4 (r : dyn_result_t) : dyn_result_t := { r with v4 := [] }

/-- Modelled from the spec: clear all IPv6 entries of the sink. -/
def gdnsd_result_wipe_v6 (r : dyn_result_t) : dyn_result_t := { r with v6 := [] }

/-- The family list of a sink selected by tag. -/
def dyn_result_t.fam_list (r : dyn_result_t) : family_t → List gdnsd_anysin_t
  | family_t.v4 => r.v4
  | family_t.v6 => r.v6

/-- The other address family. -/
def other_fam : family_t → family_t
  | family_t.v4 => family_t.v6
  | family_t.v6 => family_t.v4

/-- The family selected by the `isv6` flag passed to `resolve`. -/
def famOf (isv6 : Bool) : family_t := if isv6 then family_t.v6 else family_t.v4

/- ===================== multifo data structures ======================= -/

/-- `addrstate_t`: one address plus its monitor indices (one per
configured service type). -/
structure addrstate_t where
  addr : gdnsd_anysin_t
  indices : List Nat
deriving DecidableEq, Repr

/-- `addrset_t`: the address entries of one family of one resource plus
the failover parameters.  The C struct's `count` field always equals the
length of the allocated `as` array, so here `count` is `as.length`
(see `addrset_t.count`). -/
structure addrset_t where
  as : List addrstate_t
  num_svcs : Nat
  up_thresh : Nat
  ignore_health : Bool
deriving DecidableEq, Repr

/-- The C struct's `count` field: number of address entries. -/
def addrset_t.count (aset : addrset_t) : Nat := aset.as.length

/-- `res_t`: a named resource with optional per-family address sets. -/
structure res_t where
  name : String
  aset_v4 : Option addrset_t
  aset_v6 : Option addrset_t
deriving DecidableEq, Repr

/- ===================== the resolver (multifo.c resolve) ============== -/

/-- The per-entry combined state: `gdnsd_sttl_min(sttl_tbl, as->indices,
aset->num_svcs)` — the min fold over the entry's first `num_svcs` monitor
indices. -/
def entry_sttl (sttl_tbl : Nat → gdnsd_sttl_t) (aset : addrset_t) (a : addrstate_t) : gdnsd_sttl_t :=
  gdnsd_sttl_min sttl_tbl (a.indices.take aset.num_svcs)

/-- One iteration of the main loop of `resolve` (multifo.c lines
367-377): accumulator is (running rv, notdown counter, result sink). -/
def resolve_step (sttl_tbl : Nat → gdnsd_sttl_t) (aset : addrset_t)
    (acc : gdnsd_sttl_t × Nat × dyn_result_t) (a : addrstate_t) :
    gdnsd_sttl_t × Nat × dyn_result_t :=
  let as_sttl := entry_sttl sttl_tbl aset a
  let rv := gdnsd_sttl_min2 acc.1 as_sttl
  if !as_sttl.down then
    (rv, acc.2.1 + 1, gdnsd_result_add_anysin acc.2.2 a.addr)
  else if aset.ignore_health then
    (rv, acc.2.1, gdnsd_result_add_anysin acc.2.2 a.addr)
  else
    (rv, acc.2.1, acc.2.2)

/-- `resolve` (multifo.c lines 361-399): fold the loop over all entries,
then apply the up_thresh check: if unmet, set the down flag and (unless
`ignore_health`) wipe this family's sink entries and re-append every
address; if met, clear the down flag. -/
def resolve (sttl_tbl : Nat → gdnsd_sttl_t) (aset : addrset_t) (result : dyn_result_t)
    (isv6 : Bool) : gdnsd_sttl_t × dyn_result_t :=
  let acc := aset.as.foldl (resolve_step sttl_tbl aset) (GDNSD_STTL_TTL_MAX, 0, result)
  if acc.2.1 < aset.up_thresh then
    if aset.ignore_health then
      ({ acc.1 with down := true }, acc.2.2)
    else
      ({ acc.1 with down := true },
        aset.as.foldl (fun r a => gdnsd_result_add_anysin r a.addr)
          (if isv6 then gdnsd_result_wipe_v6 acc.2.2 else gdnsd_result_wipe_v4 acc.2.2))
  else
    ({ acc.1 with down := false }, acc.2.2)

/-- The raw min/min2 fold over the entries of a set (the value `rv` holds
after the loop of `resolve`, before the threshold check). -/
def resolve_fold_sttl (sttl_tbl : Nat → gdnsd_sttl_t) (aset : addrset_t) : gdnsd_sttl_t :=
  aset.as.foldl (fun rv a => gdnsd_sttl_min2 rv (entry_sttl sttl_tbl aset a)) GDNSD_STTL_TTL_MAX

/-- The number of entries whose own combined state is not down — the
value of the `notdown` counter after the loop of `resolve`. -/
def not_down_count (sttl_tbl : Nat → gdnsd_sttl_t) (aset : addrset_t) : Nat :=
  aset.as.countP (fun a => !(entry_sttl sttl_tbl aset a).down)

/-- `plugin_multifo_resolve` (multifo.c lines 401-422): evaluate the v4
set (if any), then the v6 set (if any) into the same sink, combining the
two results with `min2`.  The `gdnsd_assert(res->aset_v6)` on the path
where both sets are absent is modelled as `none`. -/
def plugin_multifo_resolve (sttl_tbl : Nat → gdnsd_sttl_t) (res : res_t)
    (result : dyn_result_t) : Option (gdnsd_sttl_t × dyn_result_t) :=
  match res.aset_v4, res.aset_v6 with
  | some a4, some a6 =>
    let r4 := resolve sttl_tbl a4 result false
    let r6 := resolve sttl_tbl a6 r4.2 true
    some (gdnsd_sttl_min2 r4.1 r6.1, r6.2)
  | some a4, none => some (resolve sttl_tbl a4 result false)
  | none, some a6 => some (resolve sttl_tbl a6 result true)
  | none, none => none

/- ===================== loader kernel (config_addrs) ================== -/

/-- `DEF_UP_THRESH` (multifo.c line 39), as an exact rational. -/
def DEF_UP_THRESH : ℚ := 1 / 2

/-- Modelled from the spec: `gdnsd_uscale_ceil` (gdnsd library, not in
the sources here) derives the threshold "as `ceil(count × fraction)`";
modelled with exact rational arithmetic. -/
def gdnsd_uscale_ceil (v : Nat) (s : ℚ) : Nat := ⌈(v : ℚ) * s⌉₊

/-- The parameter/threshold kernel of `config_addrs` (multifo.c lines
182-204), with the vscf config-tree plumbing abstracted into its
extracted values: `entries` are the remaining address entries after the
parameter keys were removed (`num_addrs = entries.length`), `up_thresh_cfg`
the optional configured fraction, `ignore_health` the configured flag.
Each `log_fatal` (fraction out of `(0,1]`, zero addresses) is `none`. -/
def config_addrs (entries : List addrstate_t) (num_svcs : Nat)
    (up_thresh_cfg : Option ℚ) (ignore_health : Bool) : Option addrset_t :=
  let up_thresh : ℚ := up_thresh_cfg.getD DEF_UP_THRESH
  if up_thresh ≤ 0 ∨ 1 < up_thresh then none
  else if entries.length = 0 then none
  else some { as := entries, num_svcs := num_svcs,
              up_thresh := gdnsd_uscale_ceil entries.length up_thresh,
              ignore_health := ignore_health }

/- ===================== ltarena (ltarena.c) =========================== -/

/-- `MAX_OBJ` (ltarena.c line 44). -/
def MAX_OBJ : Nat := 256

/-- `POOL_SIZE` (ltarena.c line 45). -/
def POOL_SIZE : Nat := 1024

/-- `INIT_POOLS_ALLOC` (ltarena.c line 46). -/
def INIT_POOLS_ALLOC : Nat := 4

/-- One pool: `pid` models the distinct pointer returned by `xcalloc`
(claims about pool identity take pointer distinctness as a hypothesis),
`data` its byte contents. -/
structure pool_t where
  pid : Nat
  data : Nat → Nat

/-- A freshly `xcalloc`d pool: all bytes zero. -/
def zero_pool (pid : Nat) : pool_t := { pid := pid, data := fun _ => 0 }

/-- `struct ltarena`: the pool-pointer table is modelled as the list of
the `pool + 1` valid pool pointers (the C array's slots past `pool` are
uninitialized); `palloc` is the allocated capacity of that table. -/
structure ltarena where
  pools : List pool_t
  pool : Nat
  poffs : Nat
  palloc : Nat

/-- `lta_new` (ltarena.c lines 59-66). -/
def lta_new : ltarena :=
  { pools := [zero_pool 0], pool := 0, poffs := 0, palloc := INIT_POOLS_ALLOC }

/-- A region returned by `lta_malloc`: which pool, the offset inside it,
and the size requested. -/
structure region_t where
  pool : Nat
  off : Nat
  size : Nat
deriving DecidableEq, Repr

/-- `lta_malloc` (ltarena.c lines 101-124): if the request does not fit
in the current pool's remaining space, start a fresh zeroed pool
(doubling `palloc` when the table index reaches it), reset the offset,
then bump-allocate. -/
def lta_malloc (lta : ltarena) (size : Nat) : region_t × ltarena :=
  if POOL_SIZE < lta.poffs + size then
    let pool := lta.pool + 1
    let palloc := if pool = lta.palloc then lta.palloc * 2 else lta.palloc
    ({ pool := pool, off := 0, size := size },
      { pools := lta.pools ++ [zero_pool pool], pool := pool, poffs := size, palloc := palloc })
  else
    ({ pool := lta.pool, off := lta.poffs, size := size },
      { lta with poffs := lta.poffs + size })

/-- A sequence of `lta_malloc` calls, returning all regions and the
final arena. -/
def lta_alloc_list : ltarena → List Nat → List region_t × ltarena
  | lta, [] => ([], lta)
  | lta, s :: rest =>
    ((lta_malloc lta s).1 :: (lta_alloc_list (lta_malloc lta s).2 rest).1,
      (lta_alloc_list (lta_malloc lta s).2 rest).2)

/-- The doubling loop of `lta_merge` (ltarena.c lines 87-92): double
`palloc` while `new_pool_count >= palloc`.  Structural fuel of `n + 1`
doublings bounds the loop; for any positive starting capacity this fuel
is sufficient (see `grow_palloc_gt`). -/
def grow_palloc_go : Nat → Nat → Nat → Nat
  | 0, palloc, _ => palloc
  | fuel + 1, palloc, n => if palloc ≤ n then grow_palloc_go fuel (palloc * 2) n else palloc

/-- The grown capacity after `lta_merge`'s doubling loop. -/
def grow_palloc (palloc n : Nat) : Nat := grow_palloc_go (n + 1) palloc n

/-- `lta_merge` (ltarena.c lines 82-99): save the target's current pool
pointer, copy all of the source's pool pointers over the target's table
starting at the target's current slot, and put the saved pointer at the
end; the current write pool/offset continue in the target's old current
pool. -/
def lta_merge (target source : ltarena) : ltarena :=
  let target_last_pool := target.pools.getD target.pool (zero_pool 0)
  let source_pool_count := source.pool + 1
  let new_pool_count := source_pool_count + target.pool + 1
  { pools := target.pools.take target.pool ++ source.pools.take source_pool_count
      ++ [target_last_pool],
    pool := target.pool + source.pool + 1,
    poffs := target.poffs,
    palloc := grow_palloc target.palloc new_pool_count }

/-- `lta_destroy` (ltarena.c lines 73-80), modelled as the list of pool
pointers (pids) passed to `free`, in order: pools `pool` down to `0`. -/
def lta_destroy_frees (lta : ltarena) : List Nat :=
  ((lta.pools.take (lta.pool + 1)).reverse).map (fun p => p.pid)

/- ===================== predicates used by the claims ================= -/

/-- All addresses of a set belong to family `f` (the loader enforces
this per family at lines 136-139 of multifo.c). -/
abbrev addrset_fam_ok (aset : addrset_t) (f : family_t) : Prop :=
  ∀ a ∈ aset.as, a.addr.family = f

/-- The load-time invariants used by claim C5: at least one entry and a
positive threshold. -/
abbrev addrset_loaded_ok (aset : addrset_t) : Prop :=
  1 ≤ aset.as.length ∧ 1 ≤ aset.up_thresh

/-- Region `r` lies at or after the write position of arena `l`. -/
abbrev region_after_state (r : region_t) (l : ltarena) : Prop :=
  l.pool < r.pool ∨ (l.pool = r.pool ∧ l.poffs ≤ r.off)

/-- Region `r` ends at or before the write position of arena `l`. -/
abbrev region_before_state (r : region_t) (l : ltarena) : Prop :=
  r.pool < l.pool ∨ (r.pool = l.pool ∧ r.off + r.size ≤ l.poffs)

/-- The write position of `l` is at or before that of `l'`. -/
abbrev state_le (l l' : ltarena) : Prop :=
  l.pool < l'.pool ∨ (l.pool = l'.pool ∧ l.poffs ≤ l'.poffs)

/-- `r` ends at or before `r'` starts (in an earlier pool, or earlier in
the same pool). -/
abbrev region_precedes (r r' : region_t) : Prop :=
  r.pool < r'.pool ∨ (r.pool = r'.pool ∧ r.off + r.size ≤ r'.off)

/-- Two regions do not overlap. -/
abbrev region_disjoint (r r' : region_t) : Prop :=
  r.pool ≠ r'.pool ∨ r.off + r.size ≤ r'.off ∨ r'.off + r'.size ≤ r.off

/-- Every byte of every pool of `l` is zero. -/
abbrev pools_zero (l : ltarena) : Prop := ∀ p ∈ l.pools, ∀ n, p.data n = 0

/- ===================== concrete instances for witnesses ============== -/

/-- Health table for the C3 counterexample: monitor 0 up (TTL 50),
monitor 1 down (TTL 80), all others up at max TTL. -/
def cexTbl : Nat → gdnsd_sttl_t := fun i =>
  if i = 0 then { down := false, ttl := 50 }
  else if i = 1 then { down := true, ttl := 80 }
  else GDNSD_STTL_TTL_MAX

/-- Address set for the C3 counterexample: two v4 entries monitored by
monitors 0 (up) and 1 (down), threshold 1, `ignore_health = true`. -/
def cexAset : addrset_t :=
  { as := [ { addr := { family := family_t.v4, host := 0 }, indices := [0] },
            { addr := { family := family_t.v4, host := 1 }, indices := [1] } ],
    num_svcs := 1, up_thresh := 1, ignore_health := true }

/-- An empty result sink. -/
def empty_result : dyn_result_t := { v4 := [], v6 := [] }

/-- Shorthand for the loop accumulator of `resolve`. -/
def resolve_acc (tbl : Nat → gdnsd_sttl_t) (aset : addrset_t) (result : dyn_result_t) :
    gdnsd_sttl_t × Nat × dyn_result_t :=
  aset.as.foldl (resolve_step tbl aset) (GDNSD_STTL_TTL_MAX, 0, result)

/-- Witness table for C1: every monitor reports down. -/
def tblW1 : Nat → gdnsd_sttl_t := fun _ => { down := true, ttl := 10 }

/-- Witness set for C1: one v4 entry, threshold 1, health honoured. -/
def asetW1 : addrset_t :=
  { as := [ { addr := { family := family_t.v4, host := 7 }, indices := [0] } ],
    num_svcs := 1, up_thresh := 1, ignore_health := false }

/-- Witness table for C2: monitor 0 up (TTL 30), all others down (TTL 20). -/
def tblW2 : Nat → gdnsd_sttl_t := fun i =>
  if i = 0 then { down := false, ttl := 30 } else { down := true, ttl := 20 }

/-- Witness set for C2: two v4 entries, one up and one down, threshold
exactly equal to the not-down count. -/
def asetW2 : addrset_t :=
  { as := [ { addr := { family := family_t.v4, host := 0 }, indices := [0] },
            { addr := { family := family_t.v4, host := 1 }, indices := [1] } ],
    num_svcs := 1, up_thresh := 1, ignore_health := false }

/-- Witness entries for C4: one unmonitored v4 entry. -/
def entriesW4 : List addrstate_t :=
  [ { addr := { family := family_t.v4, host := 1 }, indices := [] } ]

/-- The address set C4's witness load produces. -/
def asetW4 : addrset_t :=
  { as := entriesW4, num_svcs := 1,
    up_thresh := gdnsd_uscale_ceil 1 DEF_UP_THRESH, ignore_health := false }

/-- Witness entries for C9: ten unmonitored v4 entries. -/
def entriesW9 : List addrstate_t :=
  List.replicate 10 { addr := { family := family_t.v4, host := 0 }, indices := [] }

/-- The address set C9's witness load produces. -/
def asetW9 : addrset_t :=
  { as := entriesW9, num_svcs := 0,
    up_thresh := gdnsd_uscale_ceil 10 (1 / 2), ignore_health := false }

/-- Witness v6 set for C5: one unmonitored v6 entry. -/
def asetW5v6 : addrset_t :=
  { as := [ { addr := { family := family_t.v6, host := 9 }, indices := [] } ],
    num_svcs := 0, up_thresh := 1, ignore_health := false }

/-- Witness resource for C5: dual-stack, both families present. -/
def resW5 : res_t := { name := "w", aset_v4 := some asetW2, aset_v6 := some asetW5v6 }

/-- Witness sizes for C6: five allocations summing to 1106 > 1024. -/
def sizesW6 : List Nat := [200, 250, 256, 200, 200]

/-- Merge-target arena for C7: two pools (pids 0 and 1), pool 1 current. -/
def t7 : ltarena :=
  { pools := [zero_pool 0, zero_pool 1], pool := 1, poffs := 7, palloc := 4 }

/-- Merge-source arena for C7: two pools (pids 10 and 11), pool 11
in progress. -/
def s7 : ltarena :=
  { pools := [zero_pool 10, zero_pool 11], pool := 1, poffs := 3, palloc := 4 }

/- ===================== resolver helper lemmas ======================== -/

theorem add_anysin_v4 (r : dyn_result_t) (a : gdnsd_anysin_t) :
    (gdnsd_result_add_anysin r a).v4
      = r.v4 ++ (if a.family == family_t.v4 then [a] else []) := by
  rcases a with ⟨f, h⟩
  cases f <;> simp [gdnsd_result_add_anysin]

theorem add_anysin_v6 (r : dyn_result_t) (a : gdnsd_anysin_t) :
    (gdnsd_result_add_anysin r a).v6
      = r.v6 ++ (if a.family == family_t.v6 then [a] else []) := by
  rcases a with ⟨f, h⟩
  cases f <;> simp [gdnsd_result_add_anysin]

theorem resolve_step_fst (tbl : Nat → gdnsd_sttl_t) (aset : addrset_t)
    (acc : gdnsd_sttl_t × Nat × dyn_result_t) (a : addrstate_t) :
    (resolve_step tbl aset acc a).1 = gdnsd_sttl_min2 acc.1 (entry_sttl tbl aset a) := by
  simp only [resolve_step]
  split
  · rfl
  · split <;> rfl

theorem resolve_step_count (tbl : Nat → gdnsd_sttl_t) (aset : addrset_t)
    (acc : gdnsd_sttl_t × Nat × dyn_result_t) (a : addrstate_t) :
    (resolve_step tbl aset acc a).2.1
      = acc.2.1 + (if !(entry_sttl tbl aset a).down then 1 else 0) := by
  simp only [resolve_step]
  split
  · rename_i h
    simp [h]
  · rename_i h
    split <;> simp [h]

theorem resolve_step_v4 (tbl : Nat → gdnsd_sttl_t) (aset : addrset_t)
    (acc : gdnsd_sttl_t × Nat × dyn_result_t) (a : addrstate_t) :
    (resolve_step tbl aset acc a).2.2.v4
      = acc.2.2.v4 ++ (if ((!(entry_sttl tbl aset a).down || aset.ignore_health)
            && (a.addr.family == family_t.v4)) then [a.addr] else []) := by
  simp only [resolve_step]
  split
  · rename_i h
    simp [h, add_anysin_v4]
  · rename_i h
    split
    · rename_i hi
      simp [h, hi, add_anysin_v4]
    · rename_i hi
      simp [h, hi]

theorem resolve_step_v6 (tbl : Nat → gdnsd_sttl_t) (aset : addrset_t)
    (acc : gdnsd_sttl_t × Nat × dyn_result_t) (a : addrstate_t) :
    (resolve_step tbl aset acc a).2.2.v6
      = acc.2.2.v6 ++ (if ((!(entry_sttl tbl aset a).down || aset.ignore_health)
            && (a.addr.family == family_t.v6)) then [a.addr] else []) := by
  simp only [resolve_step]
  split
  · rename_i h
    simp [h, add_anysin_v6]
  · rename_i h
    split
    · rename_i hi
      simp [h, hi, add_anysin_v6]
    · rename_i hi
      simp [h, hi]

theorem resolve_loop_fst (tbl : Nat → gdnsd_sttl_t) (aset : addrset_t) :
    ∀ (entries : List addrstate_t) (acc : gdnsd_sttl_t × Nat × dyn_result_t),
    (entries.foldl (resolve_step tbl aset) acc).1
      = entries.foldl (fun rv a => gdnsd_sttl_min2 rv (entry_sttl tbl aset a)) acc.1
  | [], _ => rfl
  | a :: rest, acc => by
    rw [List.foldl_cons, List.foldl_cons, resolve_loop_fst tbl aset rest,
      resolve_step_fst]

theorem resolve_loop_count (tbl : Nat → gdnsd_sttl_t) (aset : addrset_t) :
    ∀ (entries : List addrstate_t) (acc : gdnsd_sttl_t × Nat × dyn_result_t),
    (entries.foldl (resolve_step tbl aset) acc).2.1
      = acc.2.1 + entries.countP (fun a => !(entry_sttl tbl aset a).down)
  | [], acc => by simp
  | a :: rest, acc => by
    rw [List.foldl_cons, resolve_loop_count tbl aset rest, resolve_step_count,
      List.countP_cons]
    by_cases h : (entry_sttl tbl aset a).down <;> simp [h] <;> omega

theorem resolve_loop_v4 (tbl : Nat → gdnsd_sttl_t) (aset : addrset_t) :
    ∀ (entries : List addrstate_t) (acc : gdnsd_sttl_t × Nat × dyn_result_t),
    (entries.foldl (resolve_step tbl aset) acc).2.2.v4
      = acc.2.2.v4 ++ (entries.filter (fun a => (!(entry_sttl tbl aset a).down
            || aset.ignore_health) && (a.addr.family == family_t.v4))).map
          (fun a => a.addr)
  | [], acc => by simp
  | a :: rest, acc => by
    rw [List.foldl_cons, resolve_loop_v4 tbl aset rest, resolve_step_v4,
      List.filter_cons]
    split
    · rename_i h
      simp [h]
    · rename_i h
      simp [h]

theorem resolve_loop_v6 (tbl : Nat → gdnsd_sttl_t) (aset : addrset_t) :
    ∀ (entries : List addrstate_t) (acc : gdnsd_sttl_t × Nat × dyn_result_t),
    (entries.foldl (resolve_step tbl aset) acc).2.2.v6
      = acc.2.2.v6 ++ (entries.filter (fun a => (!(entry_sttl tbl aset a).down
            || aset.ignore_health) && (a.addr.family == family_t.v6))).map
          (fun a => a.addr)
  | [], acc => by simp
  | a :: rest, acc => by
    rw [List.foldl_cons, resolve_loop_v6 tbl aset rest, resolve_step_v6,
      List.filter_cons]
    split
    · rename_i h
      simp [h]
    · rename_i h
      simp [h]

theorem add_fold_v4 :
    ∀ (entries : List addrstate_t) (r : dyn_result_t),
    (entries.foldl (fun r a => gdnsd_result_add_anysin r a.addr) r).v4
      = r.v4 ++ (entries.filter (fun a => a.addr.family == family_t.v4)).map
          (fun a => a.addr)
  | [], r => by simp
  | a :: rest, r => by
    rw [List.foldl_cons, add_fold_v4 rest, add_anysin_v4, List.filter_cons]
    split
    · rename_i h
      simp [h]
    · rename_i h
      simp [h]

theorem add_fold_v6 :
    ∀ (entries : List addrstate_t) (r : dyn_result_t),
    (entries.foldl (fun r a => gdnsd_result_add_anysin r a.addr) r).v6
      = r.v6 ++ (entries.filter (fun a => a.addr.family == family_t.v6)).map
          (fun a => a.addr)
  | [], r => by simp
  | a :: rest, r => by
    rw [List.foldl_cons, add_fold_v6 rest, add_anysin_v6, List.filter_cons]
    split
    · rename_i h
      simp [h]
    · rename_i h
      simp [h]

/- ===================== min-fold arithmetic lemmas ==================== -/

theorem foldl_min_le_init : ∀ (l : List Nat) (s : Nat), l.foldl min s ≤ s
  | [], s => le_refl s
  | x :: rest, s => le_trans (foldl_min_le_init rest (min s x)) (min_le_left s x)

theorem foldl_min_le_mem : ∀ (l : List Nat) (s x : Nat), x ∈ l → l.foldl min s ≤ x
  | [], _, _, hx => absurd hx (List.not_mem_nil _)
  | y :: rest, s, x, hx => by
    rcases List.mem_cons.mp hx with h | h
    · subst h
      exact le_trans (foldl_min_le_init rest (min s x)) (min_le_right s x)
    · exact foldl_min_le_mem rest (min s y) x h

theorem foldl_min_choice : ∀ (l : List Nat) (s : Nat),
    l.foldl min s = s ∨ l.foldl min s ∈ l
  | [], s => Or.inl rfl
  | y :: rest, s => by
    rcases foldl_min_choice rest (min s y) with h | h
    · rcases min_cases s y with ⟨hm, _⟩ | ⟨hm, _⟩
      · exact Or.inl (by rw [List.foldl_cons, h, hm])
      · exact Or.inr (by rw [List.foldl_cons, h, hm]; exact List.mem_cons_self y rest)
    · exact Or.inr (List.mem_cons_of_mem y h)

theorem fold_min2_ttl {α : Type} (f : α → gdnsd_sttl_t) :
    ∀ (l : List α) (init : gdnsd_sttl_t),
    (l.foldl (fun rv a => gdnsd_sttl_min2 rv (f a)) init).ttl
      = (l.map (fun a => (f a).ttl)).foldl min init.ttl
  | [], _ => rfl
  | a :: rest, init => by
    rw [List.foldl_cons, fold_min2_ttl f rest, List.map_cons, List.foldl_cons]
    rfl

/-- Every per-entry combined state has TTL at most the fold seed. -/
theorem entry_sttl_ttl_le (tbl : Nat → gdnsd_sttl_t) (aset : addrset_t) (a : addrstate_t) :
    (entry_sttl tbl aset a).ttl ≤ GDNSD_STTL_TTL_MAX.ttl := by
  unfold entry_sttl gdnsd_sttl_min
  rw [fold_min2_ttl tbl]
  exact foldl_min_le_init _ _

/- ===================== resolve branch facts ========================== -/

theorem resolve_acc_fst (tbl : Nat → gdnsd_sttl_t) (aset : addrset_t) (result : dyn_result_t) :
    (resolve_acc tbl aset result).1 = resolve_fold_sttl tbl aset := by
  unfold resolve_acc resolve_fold_sttl
  rw [resolve_loop_fst]

theorem resolve_acc_count (tbl : Nat → gdnsd_sttl_t) (aset : addrset_t) (result : dyn_result_t) :
    (resolve_acc tbl aset result).2.1 = not_down_count tbl aset := by
  unfold resolve_acc not_down_count
  rw [resolve_loop_count]
  simp

theorem resolve_eq (tbl : Nat → gdnsd_sttl_t) (aset : addrset_t) (result : dyn_result_t)
    (isv6 : Bool) :
    resolve tbl aset result isv6
      = if (resolve_acc tbl aset result).2.1 < aset.up_thresh then
          if aset.ignore_health then
            ({ (resolve_acc tbl aset result).1 with down := true },
              (resolve_acc tbl aset result).2.2)
          else
            ({ (resolve_acc tbl aset result).1 with down := true },
              aset.as.foldl (fun r a => gdnsd_result_add_anysin r a.addr)
                (if isv6 then gdnsd_result_wipe_v6 (resolve_acc tbl aset result).2.2
                 else gdnsd_result_wipe_v4 (resolve_acc tbl aset result).2.2))
        else
          ({ (resolve_acc tbl aset result).1 with down := false },
            (resolve_acc tbl aset result).2.2) := rfl

/-- The returned down flag is exactly the threshold test, in every case. -/
theorem resolve_down_eq (tbl : Nat → gdnsd_sttl_t) (aset : addrset_t) (result : dyn_result_t)
    (isv6 : Bool) :
    (resolve tbl aset result isv6).1.down
      = decide (not_down_count tbl aset < aset.up_thresh) := by
  rw [resolve_eq, resolve_acc_count]
  split
  · rename_i h
    split <;> simp [h]
  · rename_i h
    simp [h]

/-- The returned TTL is always the TTL of the raw min/min2 fold. -/
theorem resolve_ttl_eq (tbl : Nat → gdnsd_sttl_t) (aset : addrset_t) (result : dyn_result_t)
    (isv6 : Bool) :
    (resolve tbl aset result isv6).1.ttl = (resolve_fold_sttl tbl aset).ttl := by
  rw [resolve_eq, resolve_acc_fst]
  split
  · split <;> rfl
  · rfl

/- ===================== per-family resolve lemmas ===================== -/

theorem resolve_acc_v4 (tbl : Nat → gdnsd_sttl_t) (aset : addrset_t) (r0 : dyn_result_t) :
    (resolve_acc tbl aset r0).2.2.v4
      = r0.v4 ++ (aset.as.filter (fun a => (!(entry_sttl tbl aset a).down
            || aset.ignore_health) && (a.addr.family == family_t.v4))).map
          (fun a => a.addr) := by
  unfold resolve_acc
  rw [resolve_loop_v4]

theorem resolve_acc_v6 (tbl : Nat → gdnsd_sttl_t) (aset : addrset_t) (r0 : dyn_result_t) :
    (resolve_acc tbl aset r0).2.2.v6
      = r0.v6 ++ (aset.as.filter (fun a => (!(entry_sttl tbl aset a).down
            || aset.ignore_health) && (a.addr.family == family_t.v6))).map
          (fun a => a.addr) := by
  unfold resolve_acc
  rw [resolve_loop_v6]

/-- A v4-homogeneous set never touches the sink's v6 list. -/
theorem resolve_other_v6 (tbl : Nat → gdnsd_sttl_t) (aset : addrset_t) (r0 : dyn_result_t)
    (hfam : ∀ a ∈ aset.as, a.addr.family = family_t.v4) :
    (resolve tbl aset r0 false).2.v6 = r0.v6 := by
  have hnilA : aset.as.filter (fun a => (!(entry_sttl tbl aset a).down
      || aset.ignore_health) && (a.addr.family == family_t.v6)) = [] :=
    List.filter_eq_nil_iff.mpr (fun a ha => by simp [hfam a ha])
  have hnilB : aset.as.filter (fun a => a.addr.family == family_t.v6) = [] :=
    List.filter_eq_nil_iff.mpr (fun a ha => by simp [hfam a ha])
  rw [resolve_eq]
  split
  · split
    · rw [resolve_acc_v6, hnilA]
      simp
    · rw [add_fold_v6, hnilB, List.map_nil, List.append_nil]
      simp only [Bool.false_eq_true, if_false, gdnsd_result_wipe_v4]
      rw [resolve_acc_v6, hnilA]
      simp
  · rw [resolve_acc_v6, hnilA]
    simp

/-- A v6-homogeneous set never touches the sink's v4 list. -/
theorem resolve_other_v4 (tbl : Nat → gdnsd_sttl_t) (aset : addrset_t) (r0 : dyn_result_t)
    (hfam : ∀ a ∈ aset.as, a.addr.family = family_t.v6) :
    (resolve tbl aset r0 true).2.v4 = r0.v4 := by
  have hnilA : aset.as.filter (fun a => (!(entry_sttl tbl aset a).down
      || aset.ignore_health) && (a.addr.family == family_t.v4)) = [] :=
    List.filter_eq_nil_iff.mpr (fun a ha => by simp [hfam a ha])
  have hnilB : aset.as.filter (fun a => a.addr.family == family_t.v4) = [] :=
    List.filter_eq_nil_iff.mpr (fun a ha => by simp [hfam a ha])
  rw [resolve_eq]
  split
  · split
    · rw [resolve_acc_v4, hnilA]
      simp
    · rw [add_fold_v4, hnilB, List.map_nil, List.append_nil]
      simp only [if_pos rfl, gdnsd_result_wipe_v6]
      rw [resolve_acc_v4, hnilA]
      simp
  · rw [resolve_acc_v4, hnilA]
    simp

/-- Fail-open for a v4-homogeneous set: the sink's v4 list becomes the
full unconditional address list. -/
theorem resolve_failopen_v4 (tbl : Nat → gdnsd_sttl_t) (aset : addrset_t) (r0 : dyn_result_t)
    (hih : aset.ignore_health = false)
    (hth : not_down_count tbl aset < aset.up_thresh)
    (hfam : ∀ a ∈ aset.as, a.addr.family = family_t.v4) :
    (resolve tbl aset r0 false).2.v4 = aset.as.map (fun a => a.addr) := by
  have hself : aset.as.filter (fun a => a.addr.family == family_t.v4) = aset.as :=
    List.filter_eq_self.mpr (fun a ha => by simp [hfam a ha])
  rw [resolve_eq, resolve_acc_count, if_pos hth, hih]
  show (aset.as.foldl (fun r a => gdnsd_result_add_anysin r a.addr)
      (gdnsd_result_wipe_v4 (resolve_acc tbl aset r0).2.2)).v4 = _
  rw [add_fold_v4, hself]
  show ([] : List gdnsd_anysin_t) ++ _ = _
  rw [List.nil_append]

/-- Fail-open for a v6-homogeneous set: the sink's v6 list becomes the
full unconditional address list. -/
theorem resolve_failopen_v6 (tbl : Nat → gdnsd_sttl_t) (aset : addrset_t) (r0 : dyn_result_t)
    (hih : aset.ignore_health = false)
    (hth : not_down_count tbl aset < aset.up_thresh)
    (hfam : ∀ a ∈ aset.as, a.addr.family = family_t.v6) :
    (resolve tbl aset r0 true).2.v6 = aset.as.map (fun a => a.addr) := by
  have hself : aset.as.filter (fun a => a.addr.family == family_t.v6) = aset.as :=
    List.filter_eq_self.mpr (fun a ha => by simp [hfam a ha])
  rw [resolve_eq, resolve_acc_count, if_pos hth, hih]
  show (aset.as.foldl (fun r a => gdnsd_result_add_anysin r a.addr)
      (gdnsd_result_wipe_v6 (resolve_acc tbl aset r0).2.2)).v6 = _
  rw [add_fold_v6, hself]
  show ([] : List gdnsd_anysin_t) ++ _ = _
  rw [List.nil_append]

/- ===================== claim theorems: resolver ====================== -/

/-- C1: for every address set with `ignore_health = false` and every
health-state table, if the not-down count observed during evaluation is
strictly below `up_thresh`, then `resolve` returns a value with the down
flag set, the sink's list for the set's family equals the full
unconditional address list (fail-open), and the other family's list in
the sink is unchanged (nothing removed or added). -/
theorem multifo_C1_fail_open (tbl : Nat → gdnsd_sttl_t) (aset : addrset_t)
    (r0 : dyn_result_t) (isv6 : Bool)
    (hih : aset.ignore_health = false)
    (hth : not_down_count tbl aset < aset.up_thresh)
    (hfam : addrset_fam_ok aset (famOf isv6)) :
    (resolve tbl aset r0 isv6).1.down = true ∧
    ((resolve tbl aset r0 isv6).2).fam_list (famOf isv6)
      = aset.as.map (fun a => a.addr) ∧
    ((resolve tbl aset r0 isv6).2).fam_list (other_fam (famOf isv6))
      = r0.fam_list (other_fam (famOf isv6)) := by
  refine ⟨?_, ?_, ?_⟩
  · rw [resolve_down_eq]
    exact decide_eq_true hth
  · cases isv6
    · exact resolve_failopen_v4 tbl aset r0 hih hth hfam
    · exact resolve_failopen_v6 tbl aset r0 hih hth hfam
  · cases isv6
    · exact resolve_other_v6 tbl aset r0 hfam
    · exact resolve_other_v4 tbl aset r0 hfam

/-- C1 witness: the single-entry all-down set triggers fail-open. -/
theorem multifo_C1_fail_open_witness :
    (asetW1.ignore_health = false ∧ not_down_count tblW1 asetW1 < asetW1.up_thresh ∧
      addrset_fam_ok asetW1 (famOf false)) ∧
    ((resolve tblW1 asetW1 empty_result false).1.down = true ∧
      ((resolve tblW1 asetW1 empty_result false).2).fam_list (famOf false)
        = asetW1.as.map (fun a => a.addr) ∧
      ((resolve tblW1 asetW1 empty_result false).2).fam_list (other_fam (famOf false))
        = empty_result.fam_list (other_fam (famOf false))) :=
  ⟨⟨rfl, by decide, by decide⟩,
    multifo_C1_fail_open tblW1 asetW1 empty_result false rfl (by decide) (by decide)⟩

/-- C2: whenever the not-down count is at least `up_thresh` (including
exact equality), `resolve` returns a value with the down flag clear, and
its TTL is the minimum over all entries' TTL contributions, down entries
included: it is a lower bound of every entry's contribution and is
attained by some entry. -/
theorem multifo_C2_threshold_met (tbl : Nat → gdnsd_sttl_t) (aset : addrset_t)
    (r0 : dyn_result_t) (isv6 : Bool)
    (hth : aset.up_thresh ≤ not_down_count tbl aset) :
    (resolve tbl aset r0 isv6).1.down = false ∧
    (∀ a ∈ aset.as, (resolve tbl aset r0 isv6).1.ttl ≤ (entry_sttl tbl aset a).ttl) ∧
    (aset.as ≠ [] →
      ∃ a ∈ aset.as, (resolve tbl aset r0 isv6).1.ttl = (entry_sttl tbl aset a).ttl) := by
  have httl : (resolve tbl aset r0 isv6).1.ttl
      = (aset.as.map (fun a => (entry_sttl tbl aset a).ttl)).foldl min
          GDNSD_STTL_TTL_MAX.ttl := by
    rw [resolve_ttl_eq]
    unfold resolve_fold_sttl
    rw [fold_min2_ttl]
  refine ⟨?_, ?_, ?_⟩
  · rw [resolve_down_eq]
    exact decide_eq_false (Nat.not_lt.mpr hth)
  · intro a ha
    rw [httl]
    exact foldl_min_le_mem _ _ _ (List.mem_map_of_mem _ ha)
  · intro hne
    rw [httl]
    rcases foldl_min_choice (aset.as.map (fun a => (entry_sttl tbl aset a).ttl))
        GDNSD_STTL_TTL_MAX.ttl with h | h
    · obtain ⟨a0, ha0⟩ := List.exists_mem_of_ne_nil aset.as hne
      refine ⟨a0, ha0, ?_⟩
      have h1 := foldl_min_le_mem (aset.as.map (fun a => (entry_sttl tbl aset a).ttl))
        GDNSD_STTL_TTL_MAX.ttl _ (List.mem_map_of_mem _ ha0)
      have h2 := entry_sttl_ttl_le tbl aset a0
      omega
    · rcases List.mem_map.mp h with ⟨a0, ha0, heq⟩
      exact ⟨a0, ha0, heq.symm⟩

/-- C2 witness: two entries, one up and one down, threshold met with
exact equality. -/
theorem multifo_C2_threshold_met_witness :
    (asetW2.up_thresh ≤ not_down_count tblW2 asetW2) ∧
    ((resolve tblW2 asetW2 empty_result false).1.down = false ∧
      (∀ a ∈ asetW2.as,
        (resolve tblW2 asetW2 empty_result false).1.ttl ≤ (entry_sttl tblW2 asetW2 a).ttl) ∧
      (asetW2.as ≠ [] →
        ∃ a ∈ asetW2.as,
          (resolve tblW2 asetW2 empty_result false).1.ttl = (entry_sttl tblW2 asetW2 a).ttl)) :=
  ⟨by decide, multifo_C2_threshold_met tblW2 asetW2 empty_result false (by decide)⟩

/-- C3 counterexample: with `ignore_health = true`, two entries (one up,
one down) and `up_thresh = 1`, the raw min/min2 fold has the down flag
set, but `resolve` returns down = false: the returned down flag does NOT
equal the raw fold's down flag — the threshold override applies even
when `ignore_health = true`, contradicting the claim as stated. -/
theorem multifo_C3_cex :
    cexAset.ignore_health = true ∧
    (resolve cexTbl cexAset empty_result false).1.down
      ≠ (resolve_fold_sttl cexTbl cexAset).down := by
  constructor
  · rfl
  · decide

/-- C3 (amended): with `ignore_health = true`, `resolve` appends every
one of the set's addresses to the sink and never removes any address
regardless of health state; the returned down flag is set if and only if
the not-down count is strictly below `up_thresh` (the threshold check's
override applies to the down flag even when `ignore_health = true`). -/
theorem multifo_C3_ignore_health_amended (tbl : Nat → gdnsd_sttl_t) (aset : addrset_t)
    (r0 : dyn_result_t) (isv6 : Bool)
    (hih : aset.ignore_health = true) :
    (resolve tbl aset r0 isv6).2.v4
      = r0.v4 ++ (aset.as.filter (fun a => a.addr.family == family_t.v4)).map
          (fun a => a.addr) ∧
    (resolve tbl aset r0 isv6).2.v6
      = r0.v6 ++ (aset.as.filter (fun a => a.addr.family == family_t.v6)).map
          (fun a => a.addr) ∧
    (resolve tbl aset r0 isv6).1.down
      = decide (not_down_count tbl aset < aset.up_thresh) := by
  refine ⟨?_, ?_, resolve_down_eq tbl aset r0 isv6⟩
  · rw [resolve_eq]
    by_cases hc : (resolve_acc tbl aset r0).2.1 < aset.up_thresh
    · rw [if_pos hc, if_pos hih, resolve_acc_v4]
      simp [hih]
    · rw [if_neg hc, resolve_acc_v4]
      simp [hih]
  · rw [resolve_eq]
    by_cases hc : (resolve_acc tbl aset r0).2.1 < aset.up_thresh
    · rw [if_pos hc, if_pos hih, resolve_acc_v6]
      simp [hih]
    · rw [if_neg hc, resolve_acc_v6]
      simp [hih]

/-- C3 (amended) witness: the counterexample set itself. -/
theorem multifo_C3_ignore_health_amended_witness :
    (cexAset.ignore_health = true) ∧
    ((resolve cexTbl cexAset empty_result false).2.v4
      = empty_result.v4 ++ (cexAset.as.filter (fun a => a.addr.family == family_t.v4)).map
          (fun a => a.addr) ∧
    (resolve cexTbl cexAset empty_result false).2.v6
      = empty_result.v6 ++ (cexAset.as.filter (fun a => a.addr.family == family_t.v6)).map
          (fun a => a.addr) ∧
    (resolve cexTbl cexAset empty_result false).1.down
      = decide (not_down_count cexTbl cexAset < cexAset.up_thresh)) :=
  ⟨rfl, multifo_C3_ignore_health_amended cexTbl cexAset empty_result false rfl⟩

/-- C8: `min2` is associative and commutative on state+TTL values: the
TTL is the minimum of the inputs and the down flag the disjunction. -/
theorem sttl_C8_min2_assoc_comm (a b c : gdnsd_sttl_t) :
    gdnsd_sttl_min2 (gdnsd_sttl_min2 a b) c = gdnsd_sttl_min2 a (gdnsd_sttl_min2 b c) ∧
    gdnsd_sttl_min2 a b = gdnsd_sttl_min2 b a := by
  constructor
  · simp [gdnsd_sttl_min2, Bool.or_assoc, Nat.min_assoc]
  · simp [gdnsd_sttl_min2, Bool.or_comm, Nat.min_comm]

/- ===================== claim theorems: loader ======================== -/

/-- C4: every address set produced by a successful `config_addrs` load
satisfies `1 ≤ count` and `1 ≤ up_thresh ≤ count`; a successful load
implies the configured fraction was in `(0, 1]`. -/
theorem multifo_C4_load_invariant (entries : List addrstate_t) (ns : Nat)
    (cfg : Option ℚ) (ih : Bool) (aset : addrset_t)
    (h : config_addrs entries ns cfg ih = some aset) :
    1 ≤ aset.count ∧ 1 ≤ aset.up_thresh ∧ aset.up_thresh ≤ aset.count := by
  simp only [config_addrs] at h
  by_cases h1 : (cfg.getD DEF_UP_THRESH) ≤ 0 ∨ 1 < (cfg.getD DEF_UP_THRESH)
  · rw [if_pos h1] at h
    exact absurd h (by simp)
  · rw [if_neg h1] at h
    by_cases h2 : entries.length = 0
    · rw [if_pos h2] at h
      exact absurd h (by simp)
    · rw [if_neg h2] at h
      injection h with h3
      subst h3
      push_neg at h1
      obtain ⟨hu0, hu1⟩ := h1
      have hlen : (0 : ℚ) < (entries.length : ℚ) :=
        Nat.cast_pos.mpr (Nat.pos_of_ne_zero h2)
      refine ⟨Nat.pos_of_ne_zero h2, ?_, ?_⟩
      · show 1 ≤ gdnsd_uscale_ceil entries.length (cfg.getD DEF_UP_THRESH)
        unfold gdnsd_uscale_ceil
        exact Nat.ceil_pos.mpr (mul_pos hlen hu0)
      · show gdnsd_uscale_ceil entries.length (cfg.getD DEF_UP_THRESH) ≤ entries.length
        unfold gdnsd_uscale_ceil
        refine Nat.ceil_le.mpr ?_
        calc (entries.length : ℚ) * (cfg.getD DEF_UP_THRESH)
            ≤ (entries.length : ℚ) * 1 := by
              exact mul_le_mul_of_nonneg_left hu1 (le_of_lt hlen)
          _ = (entries.length : ℚ) := by ring

/-- C4 witness: a one-entry load with the default fraction. -/
theorem multifo_C4_load_invariant_witness :
    (config_addrs entriesW4 1 none false = some asetW4) ∧
    (1 ≤ asetW4.count ∧ 1 ≤ asetW4.up_thresh ∧ asetW4.up_thresh ≤ asetW4.count) := by
  have hcfg : config_addrs entriesW4 1 none false = some asetW4 := by
    simp only [config_addrs]
    rw [if_neg (by norm_num [DEF_UP_THRESH]), if_neg (by simp [entriesW4])]
    rfl
  exact ⟨hcfg, multifo_C4_load_invariant entriesW4 1 none false asetW4 hcfg⟩

/-- C9: the threshold of every loaded address set is the exact
mathematical ceiling of `count × fraction`; in particular when
`count × fraction` is exactly the integer `n`, the threshold is `n`
itself, not `n + 1` (no representation error nudges an exact boundary
upward in the exact-arithmetic model of `gdnsd_uscale_ceil`). -/
theorem multifo_C9_up_thresh_exact_ceil (entries : List addrstate_t) (ns : Nat)
    (s : ℚ) (ih : Bool) (aset : addrset_t) (n : Nat)
    (h : config_addrs entries ns (some s) ih = some aset)
    (hn : (entries.length : ℚ) * s = (n : ℚ)) :
    aset.up_thresh = ⌈(entries.length : ℚ) * s⌉₊ ∧ aset.up_thresh = n := by
  simp only [config_addrs] at h
  by_cases h1 : ((some s).getD DEF_UP_THRESH) ≤ 0 ∨ 1 < ((some s).getD DEF_UP_THRESH)
  · rw [if_pos h1] at h
    exact absurd h (by simp)
  · rw [if_neg h1] at h
    by_cases h2 : entries.length = 0
    · rw [if_pos h2] at h
      exact absurd h (by simp)
    · rw [if_neg h2] at h
      injection h with h3
      subst h3
      constructor
      · rfl
      · show gdnsd_uscale_ceil entries.length s = n
        unfold gdnsd_uscale_ceil
        rw [hn, Nat.ceil_natCast]

/-- C9 witness: `count = 10`, `fraction = 1/2` gives `up_thresh = 5`,
not 6. -/
theorem multifo_C9_up_thresh_exact_ceil_witness :
    (config_addrs entriesW9 0 (some (1 / 2 : ℚ)) false = some asetW9 ∧
      (entriesW9.length : ℚ) * (1 / 2) = ((5 : Nat) : ℚ)) ∧
    (asetW9.up_thresh = ⌈(entriesW9.length : ℚ) * (1 / 2)⌉₊ ∧ asetW9.up_thresh = 5) := by
  have hcfg : config_addrs entriesW9 0 (some (1 / 2 : ℚ)) false = some asetW9 := by
    simp only [config_addrs]
    rw [if_neg (by norm_num), if_neg (by simp [entriesW9])]
    rfl
  have hnum : (entriesW9.length : ℚ) * (1 / 2) = ((5 : Nat) : ℚ) := by
    norm_num [entriesW9]
  exact ⟨⟨hcfg, hnum⟩,
    multifo_C9_up_thresh_exact_ceil entriesW9 0 (1 / 2) false asetW9 5 hcfg hnum⟩

/- ===================== C5 support lemmas ============================= -/

theorem append_map_ne_nil {l0 : List gdnsd_anysin_t} {l : List addrstate_t}
    (h : l ≠ []) : l0 ++ l.map (fun a => a.addr) ≠ [] := by
  intro hc
  rcases List.append_eq_nil.mp hc with ⟨-, hmap⟩
  simp at hmap
  exact h hmap

/-- Under the load invariants, a v4-homogeneous `resolve` leaves at
least one v4 address in the sink (every branch appends at least one). -/
theorem resolve_v4_nonempty (tbl : Nat → gdnsd_sttl_t) (aset : addrset_t) (r0 : dyn_result_t)
    (hcnt : 1 ≤ aset.as.length) (hth : 1 ≤ aset.up_thresh)
    (hfam : ∀ a ∈ aset.as, a.addr.family = family_t.v4) :
    (resolve tbl aset r0 false).2.v4 ≠ [] := by
  have hne : aset.as ≠ [] := by
    intro hc
    rw [hc] at hcnt
    simp at hcnt
  have hself : aset.as.filter (fun a => a.addr.family == family_t.v4) = aset.as :=
    List.filter_eq_self.mpr (fun a ha => by simp [hfam a ha])
  rw [resolve_eq]
  by_cases hc : (resolve_acc tbl aset r0).2.1 < aset.up_thresh
  · by_cases hi : aset.ignore_health = true
    · rw [if_pos hc, if_pos hi, resolve_acc_v4]
      have hfil : aset.as.filter (fun a => (!(entry_sttl tbl aset a).down
          || aset.ignore_health) && (a.addr.family == family_t.v4)) = aset.as :=
        List.filter_eq_self.mpr (fun a ha => by simp [hfam a ha, hi])
      rw [hfil]
      exact append_map_ne_nil hne
    · rw [if_pos hc, if_neg hi, add_fold_v4, hself]
      exact append_map_ne_nil hne
  · rw [if_neg hc, resolve_acc_v4]
    have hpos : 0 < not_down_count tbl aset := by
      have := resolve_acc_count tbl aset r0
      omega
    obtain ⟨a0, ha0, hp⟩ := List.countP_pos.mp hpos
    have hmem : a0 ∈ aset.as.filter (fun a => (!(entry_sttl tbl aset a).down
        || aset.ignore_health) && (a.addr.family == family_t.v4)) := by
      rw [List.mem_filter]
      refine ⟨ha0, ?_⟩
      simp only [Bool.not_eq_true'] at hp ⊢
      simp [hp, hfam a0 ha0]
    intro hcontra
    rcases List.append_eq_nil.mp hcontra with ⟨-, hmap⟩
    rw [List.map_eq_nil_iff] at hmap
    rw [hmap] at hmem
    exact List.not_mem_nil a0 hmem

/-- Under the load invariants, a v6-homogeneous `resolve` leaves at
least one v6 address in the sink. -/
theorem resolve_v6_nonempty (tbl : Nat → gdnsd_sttl_t) (aset : addrset_t) (r0 : dyn_result_t)
    (hcnt : 1 ≤ aset.as.length) (hth : 1 ≤ aset.up_thresh)
    (hfam : ∀ a ∈ aset.as, a.addr.family = family_t.v6) :
    (resolve tbl aset r0 true).2.v6 ≠ [] := by
  have hne : aset.as ≠ [] := by
    intro hc
    rw [hc] at hcnt
    simp at hcnt
  have hself : aset.as.filter (fun a => a.addr.family == family_t.v6) = aset.as :=
    List.filter_eq_self.mpr (fun a ha => by simp [hfam a ha])
  rw [resolve_eq]
  by_cases hc : (resolve_acc tbl aset r0).2.1 < aset.up_thresh
  · by_cases hi : aset.ignore_health = true
    · rw [if_pos hc, if_pos hi, resolve_acc_v6]
      have hfil : aset.as.filter (fun a => (!(entry_sttl tbl aset a).down
          || aset.ignore_health) && (a.addr.family == family_t.v6)) = aset.as :=
        List.filter_eq_self.mpr (fun a ha => by simp [hfam a ha, hi])
      rw [hfil]
      exact append_map_ne_nil hne
    · rw [if_pos hc, if_neg hi, add_fold_v6, hself]
      exact append_map_ne_nil hne
  · rw [if_neg hc, resolve_acc_v6]
    have hpos : 0 < not_down_count tbl aset := by
      have := resolve_acc_count tbl aset r0
      omega
    obtain ⟨a0, ha0, hp⟩ := List.countP_pos.mp hpos
    have hmem : a0 ∈ aset.as.filter (fun a => (!(entry_sttl tbl aset a).down
        || aset.ignore_health) && (a.addr.family == family_t.v6)) := by
      rw [List.mem_filter]
      refine ⟨ha0, ?_⟩
      simp only [Bool.not_eq_true'] at hp ⊢
      simp [hp, hfam a0 ha0]
    intro hcontra
    rcases List.append_eq_nil.mp hcontra with ⟨-, hmap⟩
    rw [List.map_eq_nil_iff] at hmap
    rw [hmap] at hmem
    exact List.not_mem_nil a0 hmem

/- ===================== claim theorem: C5 ============================= -/

/-- C5: for every resource with at least one (validly loaded,
family-homogeneous) address set and every health-state table,
`plugin_multifo_resolve` returns a state+TTL value (never the
assert-failure path), and the sink ends up with at least one address for
each family present — in every branch at least one address is appended
because `count ≥ 1` and `up_thresh ≥ 1`. -/
theorem multifo_C5_resolve_total (tbl : Nat → gdnsd_sttl_t) (res : res_t) (r0 : dyn_result_t)
    (hpresent : res.aset_v4.isSome ∨ res.aset_v6.isSome)
    (h4 : res.aset_v4.elim True
      (fun a4 => addrset_loaded_ok a4 ∧ addrset_fam_ok a4 family_t.v4))
    (h6 : res.aset_v6.elim True
      (fun a6 => addrset_loaded_ok a6 ∧ addrset_fam_ok a6 family_t.v6)) :
    ∃ rv r', plugin_multifo_resolve tbl res r0 = some (rv, r') ∧
      (res.aset_v4.isSome → r'.v4 ≠ []) ∧ (res.aset_v6.isSome → r'.v6 ≠ []) := by
  cases hv4 : res.aset_v4 with
  | none =>
    cases hv6 : res.aset_v6 with
    | none =>
      rw [hv4, hv6] at hpresent
      simp at hpresent
    | some a6 =>
      rw [hv6] at h6
      simp only [Option.elim] at h6
      obtain ⟨⟨hcnt, hth⟩, hfam⟩ := h6
      refine ⟨(resolve tbl a6 r0 true).1, (resolve tbl a6 r0 true).2, ?_, ?_, ?_⟩
      · simp only [plugin_multifo_resolve, hv4, hv6]
      · intro hcontra
        simp at hcontra
      · intro _
        exact resolve_v6_nonempty tbl a6 r0 hcnt hth hfam
  | some a4 =>
    rw [hv4] at h4
    simp only [Option.elim] at h4
    obtain ⟨⟨hcnt4, hth4⟩, hfam4⟩ := h4
    cases hv6 : res.aset_v6 with
    | none =>
      refine ⟨(resolve tbl a4 r0 false).1, (resolve tbl a4 r0 false).2, ?_, ?_, ?_⟩
      · simp only [plugin_multifo_resolve, hv4, hv6]
      · intro _
        exact resolve_v4_nonempty tbl a4 r0 hcnt4 hth4 hfam4
      · intro hcontra
        simp at hcontra
    | some a6 =>
      rw [hv6] at h6
      simp only [Option.elim] at h6
      obtain ⟨⟨hcnt6, hth6⟩, hfam6⟩ := h6
      refine ⟨gdnsd_sttl_min2 (resolve tbl a4 r0 false).1
          (resolve tbl a6 (resolve tbl a4 r0 false).2 true).1,
        (resolve tbl a6 (resolve tbl a4 r0 false).2 true).2, ?_, ?_, ?_⟩
      · simp only [plugin_multifo_resolve, hv4, hv6]
      · intro _
        rw [resolve_other_v4 tbl a6 _ hfam6]
        exact resolve_v4_nonempty tbl a4 r0 hcnt4 hth4 hfam4
      · intro _
        exact resolve_v6_nonempty tbl a6 _ hcnt6 hth6 hfam6

/-- C5 witness: a dual-stack resource resolves to `some` with nonempty
lists for both families. -/
theorem multifo_C5_resolve_total_witness :
    ((resW5.aset_v4.isSome ∨ resW5.aset_v6.isSome) ∧
      resW5.aset_v4.elim True
        (fun a4 => addrset_loaded_ok a4 ∧ addrset_fam_ok a4 family_t.v4) ∧
      resW5.aset_v6.elim True
        (fun a6 => addrset_loaded_ok a6 ∧ addrset_fam_ok a6 family_t.v6)) ∧
    (∃ rv r', plugin_multifo_resolve tblW2 resW5 empty_result = some (rv, r') ∧
      (resW5.aset_v4.isSome → r'.v4 ≠ []) ∧ (resW5.aset_v6.isSome → r'.v6 ≠ [])) :=
  ⟨⟨by decide, by simp only [resW5, Option.elim]; decide,
      by simp only [resW5, Option.elim]; decide⟩,
    multifo_C5_resolve_total tblW2 resW5 empty_result (by decide)
      (by simp only [resW5, Option.elim]; decide)
      (by simp only [resW5, Option.elim]; decide)⟩

/- ===================== arena order lemmas ============================ -/

theorem region_precedes_disjoint {r r' : region_t} (h : region_precedes r r') :
    region_disjoint r r' := by
  rcases h with h | ⟨h1, h2⟩
  · exact Or.inl (Nat.ne_of_lt h)
  · exact Or.inr (Or.inl h2)

theorem region_before_after_precedes {r r' : region_t} {l : ltarena}
    (hb : region_before_state r l) (ha : region_after_state r' l) :
    region_precedes r r' := by
  rcases hb with h | ⟨h1, h2⟩ <;> rcases ha with g | ⟨g1, g2⟩
  · exact Or.inl (by omega)
  · exact Or.inl (by omega)
  · exact Or.inl (by omega)
  · exact Or.inr ⟨by omega, by omega⟩

theorem region_after_mono {r : region_t} {l l' : ltarena}
    (h : state_le l l') (ha : region_after_state r l') : region_after_state r l := by
  rcases h with h | ⟨h1, h2⟩ <;> rcases ha with g | ⟨g1, g2⟩
  · exact Or.inl (by omega)
  · exact Or.inl (by omega)
  · exact Or.inl (by omega)
  · exact Or.inr ⟨by omega, by omega⟩

theorem region_before_mono {r : region_t} {l l' : ltarena}
    (hb : region_before_state r l) (h : state_le l l') : region_before_state r l' := by
  rcases hb with g | ⟨g1, g2⟩ <;> rcases h with h | ⟨h1, h2⟩
  · exact Or.inl (by omega)
  · exact Or.inl (by omega)
  · exact Or.inl (by omega)
  · exact Or.inr ⟨by omega, by omega⟩

theorem state_le_trans {a b c : ltarena} (h1 : state_le a b) (h2 : state_le b c) :
    state_le a c := by
  rcases h1 with h | ⟨g1, g2⟩ <;> rcases h2 with h' | ⟨g1', g2'⟩
  · exact Or.inl (by omega)
  · exact Or.inl (by omega)
  · exact Or.inl (by omega)
  · exact Or.inr ⟨by omega, by omega⟩

/- ===================== lta_malloc step lemma ========================= -/

theorem lta_malloc_spec (l : ltarena) (s : Nat) (h1 : 1 ≤ s) (h2 : s ≤ MAX_OBJ) :
    (lta_malloc l s).1.size = s ∧
    (lta_malloc l s).1.off + s ≤ POOL_SIZE ∧
    region_after_state (lta_malloc l s).1 l ∧
    region_before_state (lta_malloc l s).1 (lta_malloc l s).2 ∧
    state_le l (lta_malloc l s).2 ∧
    (pools_zero l → pools_zero (lta_malloc l s).2) := by
  have hmax : MAX_OBJ ≤ POOL_SIZE := by norm_num [MAX_OBJ, POOL_SIZE]
  unfold lta_malloc
  by_cases hg : POOL_SIZE < l.poffs + s
  · rw [if_pos hg]
    refine ⟨rfl, by simp; omega, Or.inl (Nat.lt_succ_self _), Or.inr ⟨rfl, by simp⟩,
      Or.inl (Nat.lt_succ_self _), ?_⟩
    intro hz p hp n
    rcases List.mem_append.mp hp with hp | hp
    · exact hz p hp n
    · rw [List.mem_singleton.mp hp]
      rfl
  · rw [if_neg hg]
    exact ⟨rfl, by simp; omega, Or.inr ⟨rfl, le_refl _⟩, Or.inr ⟨rfl, by simp⟩,
      Or.inr ⟨rfl, by simp⟩, fun hz => hz⟩

/- ===================== lta_alloc_list induction ====================== -/

theorem lta_alloc_list_spec : ∀ (sizes : List Nat) (l : ltarena),
    (∀ s ∈ sizes, 1 ≤ s ∧ s ≤ MAX_OBJ) →
    ((lta_alloc_list l sizes).1.map (fun r => r.size) = sizes ∧
     (∀ r ∈ (lta_alloc_list l sizes).1, r.off + r.size ≤ POOL_SIZE ∧
        region_after_state r l) ∧
     (lta_alloc_list l sizes).1.Pairwise region_precedes ∧
     state_le l (lta_alloc_list l sizes).2 ∧
     (pools_zero l → pools_zero (lta_alloc_list l sizes).2))
  | [], l, _ => by
    refine ⟨rfl, ?_, List.Pairwise.nil, Or.inr ⟨rfl, le_refl _⟩, fun hz => hz⟩
    intro r hr
    exact absurd hr (List.not_mem_nil r)
  | s :: rest, l, hsz => by
    obtain ⟨hs1, hs2⟩ := hsz s (List.mem_cons_self s rest)
    have hrest : ∀ x ∈ rest, 1 ≤ x ∧ x ≤ MAX_OBJ :=
      fun x hx => hsz x (List.mem_cons_of_mem s hx)
    obtain ⟨hA, hB, hC, hD, hE, hF⟩ := lta_malloc_spec l s hs1 hs2
    obtain ⟨ih1, ih2, ih3, ih4, ih5⟩ := lta_alloc_list_spec rest (lta_malloc l s).2 hrest
    simp only [lta_alloc_list]
    refine ⟨?_, ?_, ?_, ?_, ?_⟩
    · rw [List.map_cons, hA, ih1]
    · intro r hr
      rcases List.mem_cons.mp hr with hr | hr
      · subst hr
        exact ⟨by rw [hA]; exact hB, hC⟩
      · obtain ⟨hb, ha⟩ := ih2 r hr
        exact ⟨hb, region_after_mono hE ha⟩
    · refine List.Pairwise.cons ?_ ih3
      intro r' hr'
      exact region_before_after_precedes hD ((ih2 r' hr').2)
    · exact state_le_trans hE ih4
    · exact fun hz => ih5 (hF hz)

/- ===================== arena byte/zero helpers ======================= -/

theorem mem_of_list_getElem {α : Type} {l : List α} {i : Nat} {a : α}
    (h : l[i]? = some a) : a ∈ l := by
  have hi : i < l.length := by
    by_contra hc
    rw [List.getElem?_eq_none (by omega)] at h
    exact Option.noConfusion h
  rw [List.getElem?_eq_getElem hi] at h
  rw [← Option.some.inj h]
  exact List.getElem_mem hi

theorem pools_zero_getD {l : ltarena} (hz : pools_zero l) (i n : Nat) :
    (l.pools.getD i (zero_pool 0)).data n = 0 := by
  rw [List.getD_eq_getElem?_getD]
  rcases hg : l.pools[i]? with _ | p
  · rfl
  · exact hz p (mem_of_list_getElem hg) n

theorem pools_zero_lta_new : pools_zero lta_new := by
  intro p hp n
  rcases List.mem_singleton.mp hp with rfl
  rfl

/- ===================== claim theorem: C6 ============================= -/

/-- C6: for every sequence of allocations with sizes in `[1, MAX_OBJ]`
summing to more than one pool's capacity, the regions returned by
`lta_malloc` (starting from `lta_new`) are pairwise disjoint, each is
exactly the requested size, and every byte of every returned region is
zero in the final arena; moreover, whenever a request does not fit the
current pool, `lta_malloc` starts a fresh zeroed fixed-size pool, resets
the offset to zero (bumping it to the request size), and doubles the
pool-table capacity exactly when the table index reaches it. -/
theorem arena_C6_alloc (sizes : List Nat)
    (hsz : ∀ s ∈ sizes, 1 ≤ s ∧ s ≤ MAX_OBJ)
    (hsum : POOL_SIZE < sizes.sum) :
    (lta_alloc_list lta_new sizes).1.map (fun r => r.size) = sizes ∧
    (lta_alloc_list lta_new sizes).1.Pairwise region_disjoint ∧
    (∀ r ∈ (lta_alloc_list lta_new sizes).1, ∀ k, k < r.size →
      ((lta_alloc_list lta_new sizes).2.pools.getD r.pool (zero_pool 0)).data
        (r.off + k) = 0) ∧
    (∀ (l : ltarena) (s : Nat), POOL_SIZE < l.poffs + s →
      (lta_malloc l s).2.pool = l.pool + 1 ∧
      (lta_malloc l s).1.off = 0 ∧
      (lta_malloc l s).2.poffs = s ∧
      (lta_malloc l s).2.pools = l.pools ++ [zero_pool (l.pool + 1)] ∧
      (lta_malloc l s).2.palloc
        = (if l.pool + 1 = l.palloc then l.palloc * 2 else l.palloc)) := by
  obtain ⟨h1, h2, h3, h4, h5⟩ := lta_alloc_list_spec sizes lta_new hsz
  have hzfinal : pools_zero (lta_alloc_list lta_new sizes).2 := h5 pools_zero_lta_new
  refine ⟨h1, h3.imp (fun h => region_precedes_disjoint h), ?_, ?_⟩
  · intro r _ k _
    exact pools_zero_getD hzfinal r.pool (r.off + k)
  · intro l s hg
    refine ⟨?_, ?_, ?_, ?_, ?_⟩ <;> simp [lta_malloc, hg]

/-- C6 witness: the concrete size sequence satisfies the bounds and the
sum condition, and the theorem's conclusions hold for it. -/
theorem arena_C6_alloc_witness :
    ((∀ s ∈ sizesW6, 1 ≤ s ∧ s ≤ MAX_OBJ) ∧ POOL_SIZE < sizesW6.sum) ∧
    ((lta_alloc_list lta_new sizesW6).1.map (fun r => r.size) = sizesW6 ∧
    (lta_alloc_list lta_new sizesW6).1.Pairwise region_disjoint ∧
    (∀ r ∈ (lta_alloc_list lta_new sizesW6).1, ∀ k, k < r.size →
      ((lta_alloc_list lta_new sizesW6).2.pools.getD r.pool (zero_pool 0)).data
        (r.off + k) = 0) ∧
    (∀ (l : ltarena) (s : Nat), POOL_SIZE < l.poffs + s →
      (lta_malloc l s).2.pool = l.pool + 1 ∧
      (lta_malloc l s).1.off = 0 ∧
      (lta_malloc l s).2.poffs = s ∧
      (lta_malloc l s).2.pools = l.pools ++ [zero_pool (l.pool + 1)] ∧
      (lta_malloc l s).2.palloc
        = (if l.pool + 1 = l.palloc then l.palloc * 2 else l.palloc))) :=
  ⟨⟨by decide, by decide⟩, arena_C6_alloc sizesW6 (by decide) (by decide)⟩

/- ===================== claim theorem: C10 ============================ -/

/-- C10: under the stated precondition `1 ≤ size ≤ MAX_OBJ`, a single
`lta_malloc` call from any arena state leaves the write offset within
the pool (`poffs ≤ POOL_SIZE`), returns a region of exactly the
requested size lying entirely within one pool (`off + size ≤
POOL_SIZE`, a single pool index), and the switch branch can never
overflow a fresh pool because `MAX_OBJ ≤ POOL_SIZE`. -/
theorem arena_C10_no_overflow (l : ltarena) (s : Nat)
    (h1 : 1 ≤ s) (h2 : s ≤ MAX_OBJ) :
    (lta_malloc l s).2.poffs ≤ POOL_SIZE ∧
    (lta_malloc l s).1.size = s ∧
    (lta_malloc l s).1.off + (lta_malloc l s).1.size ≤ POOL_SIZE ∧
    MAX_OBJ ≤ POOL_SIZE := by
  have hmax : MAX_OBJ ≤ POOL_SIZE := by norm_num [MAX_OBJ, POOL_SIZE]
  unfold lta_malloc
  by_cases hg : POOL_SIZE < l.poffs + s
  · rw [if_pos hg]
    exact ⟨by simp; omega, rfl, by simp; omega, hmax⟩
  · rw [if_neg hg]
    exact ⟨by simp; omega, rfl, by simp; omega, hmax⟩

/-- C10 witness: a maximal 256-byte request from a fresh arena. -/
theorem arena_C10_no_overflow_witness :
    (1 ≤ 256 ∧ 256 ≤ MAX_OBJ) ∧
    ((lta_malloc lta_new 256).2.poffs ≤ POOL_SIZE ∧
    (lta_malloc lta_new 256).1.size = 256 ∧
    (lta_malloc lta_new 256).1.off + (lta_malloc lta_new 256).1.size ≤ POOL_SIZE ∧
    MAX_OBJ ≤ POOL_SIZE) :=
  ⟨⟨by decide, by decide⟩, arena_C10_no_overflow lta_new 256 (by decide) (by decide)⟩

/- ===================== grow_palloc lemmas ============================ -/

theorem grow_palloc_go_pow : ∀ (fuel p n : Nat), ∃ k, grow_palloc_go fuel p n = p * 2 ^ k
  | 0, p, n => ⟨0, by simp [grow_palloc_go]⟩
  | fuel + 1, p, n => by
    unfold grow_palloc_go
    by_cases h : p ≤ n
    · rw [if_pos h]
      obtain ⟨k, hk⟩ := grow_palloc_go_pow fuel (p * 2) n
      exact ⟨k + 1, by rw [hk]; ring⟩
    · rw [if_neg h]
      exact ⟨0, by ring⟩

theorem grow_palloc_go_gt : ∀ (fuel p n : Nat), 0 < p → n + 1 ≤ p * 2 ^ fuel →
    n < grow_palloc_go fuel p n
  | 0, p, n, _, hb => by
    unfold grow_palloc_go
    simp only [pow_zero, mul_one] at hb
    omega
  | fuel + 1, p, n, hp, hb => by
    unfold grow_palloc_go
    by_cases h : p ≤ n
    · rw [if_pos h]
      refine grow_palloc_go_gt fuel (p * 2) n (by omega) ?_
      calc n + 1 ≤ p * 2 ^ (fuel + 1) := hb
        _ = p * 2 * 2 ^ fuel := by ring
    · rw [if_neg h]
      omega

/-- The doubling loop produces a capacity strictly above the needed pool
count (matching the C loop's `while (new_pool_count >= palloc)`). -/
theorem grow_palloc_gt (p n : Nat) (hp : 0 < p) : n < grow_palloc p n := by
  refine grow_palloc_go_gt (n + 1) p n hp ?_
  calc n + 1 ≤ 2 ^ (n + 1) := le_of_lt (Nat.lt_two_pow (n + 1))
    _ = 1 * 2 ^ (n + 1) := by ring
    _ ≤ p * 2 ^ (n + 1) := Nat.mul_le_mul_right _ hp

/- ===================== pool-table split lemma ======================== -/

theorem take_concat_getD {α : Type} : ∀ (l : List α) (p : Nat) (d : α),
    l.length = p + 1 → l.take p ++ [l.getD p d] = l
  | [], p, d, h => by simp at h
  | x :: xs, 0, d, h => by
    have hxs : xs = [] := List.length_eq_zero.mp (by simpa using h)
    subst hxs
    rfl
  | x :: xs, q + 1, d, h => by
    have h' : xs.length = q + 1 := by simpa using h
    rw [List.take_succ_cons]
    have hg : (x :: xs).getD (q + 1) d = xs.getD q d := by simp [List.getD]
    rw [hg, List.cons_append, take_concat_getD xs q d h']

/- ===================== claim theorems: C7 ============================ -/

/-- C7 counterexample: merging `s7` into `t7` yields the pool-pointer
sequence `[0, 10, 11, 1]` — the pool transferred to the end of the
combined sequence is the TARGET's in-progress pool (pid 1), not the
source's in-progress pool (pid 11) as the claim states. -/
theorem arena_C7_cex :
    ((lta_merge t7 s7).pools.map (fun p => p.pid) = [0, 10, 11, 1]) ∧
    ((lta_merge t7 s7).pools.map (fun p => p.pid)).getLastD 999
      ≠ (s7.pools.map (fun p => p.pid)).getLastD 999 := by
  decide

/-- C7 (amended): `merge(target, source)` inserts all of source's pools
at target's current pool position and transfers TARGET's in-progress
pool to the end of the combined sequence (not source's); the resulting
table holds exactly the union of both arenas' pools, each exactly once
(transferred by ownership, the same pool pointers), the table capacity
grows by doubling to exceed the combined pool count, and a subsequent
`destroy(target)` frees every pool of both arenas exactly once. -/
theorem arena_C7_merge_amended (target source : ltarena)
    (hT : target.pools.length = target.pool + 1)
    (hS : source.pools.length = source.pool + 1)
    (hpal : 0 < target.palloc)
    (hnodup : ((target.pools ++ source.pools).map (fun p => p.pid)).Nodup) :
    ((lta_merge target source).pools.map (fun p => p.pid)
      = (target.pools.take target.pool).map (fun p => p.pid)
        ++ source.pools.map (fun p => p.pid)
        ++ [(target.pools.getD target.pool (zero_pool 0)).pid]) ∧
    ((lta_merge target source).pools.map (fun p => p.pid)).Perm
      ((target.pools ++ source.pools).map (fun p => p.pid)) ∧
    ((lta_merge target source).pools.map (fun p => p.pid)).Nodup ∧
    (lta_destroy_frees (lta_merge target source)).Perm
      ((target.pools ++ source.pools).map (fun p => p.pid)) ∧
    (lta_destroy_frees (lta_merge target source)).Nodup ∧
    (lta_merge target source).pools.length ≤ (lta_merge target source).palloc ∧
    (∃ k, (lta_merge target source).palloc = target.palloc * 2 ^ k) := by
  have hpools : (lta_merge target source).pools
      = target.pools.take target.pool ++ source.pools
        ++ [target.pools.getD target.pool (zero_pool 0)] := by
    simp only [lta_merge]
    rw [show source.pools.take (source.pool + 1) = source.pools from by
      rw [← hS]; exact List.take_length source.pools]
  have hsplit : target.pools.take target.pool
      ++ [target.pools.getD target.pool (zero_pool 0)] = target.pools :=
    take_concat_getD target.pools target.pool (zero_pool 0) hT
  have hperm : ((lta_merge target source).pools).Perm
      (target.pools ++ source.pools) := by
    rw [hpools, List.append_assoc]
    refine (List.Perm.append_left (target.pools.take target.pool)
      (List.perm_append_comm)).trans ?_
    rw [← List.append_assoc, hsplit]
  have hlen : (lta_merge target source).pools.length
      = target.pool + source.pool + 2 := by
    rw [hpools]
    simp only [List.length_append, List.length_take, hT, hS, List.length_singleton]
    omega
  have hpal' : (lta_merge target source).palloc
      = grow_palloc target.palloc (source.pool + 1 + target.pool + 1) := by
    simp [lta_merge]
  have htake : (lta_merge target source).pools.take
      ((lta_merge target source).pool + 1) = (lta_merge target source).pools := by
    apply List.take_of_length_le
    rw [hlen]
    simp [lta_merge]
  have hfrees : (lta_destroy_frees (lta_merge target source)).Perm
      ((target.pools ++ source.pools).map (fun p => p.pid)) := by
    unfold lta_destroy_frees
    rw [htake]
    refine List.Perm.trans ?_ (hperm.map (fun p => p.pid))
    rw [List.map_reverse]
    exact List.reverse_perm _
  refine ⟨?_, hperm.map (fun p => p.pid), ?_, hfrees, ?_, ?_, ?_⟩
  · rw [hpools]
    simp [List.map_append]
  · exact ((hperm.map (fun p => p.pid)).nodup_iff).mpr hnodup
  · exact (hfrees.nodup_iff).mpr hnodup
  · have hgt := grow_palloc_gt target.palloc (source.pool + 1 + target.pool + 1) hpal
    rw [hlen, hpal']
    omega
  · rw [hpal']
    exact grow_palloc_go_pow _ _ _

/-- C7 (amended) witness: the counterexample arenas themselves. -/
theorem arena_C7_merge_amended_witness :
    (t7.pools.length = t7.pool + 1 ∧ s7.pools.length = s7.pool + 1 ∧
      0 < t7.palloc ∧ ((t7.pools ++ s7.pools).map (fun p => p.pid)).Nodup) ∧
    (((lta_merge t7 s7).pools.map (fun p => p.pid)
      = (t7.pools.take t7.pool).map (fun p => p.pid)
        ++ s7.pools.map (fun p => p.pid)
        ++ [(t7.pools.getD t7.pool (zero_pool 0)).pid]) ∧
    ((lta_merge t7 s7).pools.map (fun p => p.pid)).Perm
      ((t7.pools ++ s7.pools).map (fun p => p.pid)) ∧
    ((lta_merge t7 s7).pools.map (fun p => p.pid)).Nodup ∧
    (lta_destroy_frees (lta_merge t7 s7)).Perm
      ((t7.pools ++ s7.pools).map (fun p => p.pid)) ∧
    (lta_destroy_frees (lta_merge t7 s7)).Nodup ∧
    (lta_merge t7 s7).pools.length ≤ (lta_merge t7 s7).palloc ∧
    (∃ k, (lta_merge t7 s7).palloc = t7.palloc * 2 ^ k)) :=
  ⟨⟨by decide, by decide, by decide, by decide⟩,
    arena_C7_merge_amended t7 s7 (by decide) (by decide) (by decide) (by decide)⟩
